import Mathlib

/-!
Verification of the query/correlation core of the airtable-mcp HTTP server
(`src/http-mcp-server.ts`): property registry, field projection, fetch
parameter construction, filter-formula construction and the composed query
operations, embedded shallowly.

Modelling conventions:
* JavaScript objects holding record fields are association lists
  `List (String × AValue)`; `Object.entries` order is the list order.
* Calendar dates (`YYYY-MM-DD` strings in the code) are modelled as `Int`
  day indices; adding one day is `+ 1`, and the process clock
  (`new Date()` / `Date.now()`) is an explicit `today : Int` parameter.
  `new Date(Date.now() + k*24*3600*1000).toISOString().slice(0,10)` is
  `today + k` (Unix time has exactly 86400 s per UTC day).
* The remote store (axios GET) is an oracle `FetchCall → Except RemoteErr
  (List RawRecord)` passed to each operation; the operation also returns
  the list of `FetchCall`s it issued.
-/

/-- A JSON-ish field value as returned by the remote store.  Only strings
and numbers occur in the claims; values are passed through verbatim. -/
inductive AValue where
  | str : String → AValue
  | num : Int → AValue
deriving DecidableEq, Repr

/-- JavaScript `v.toString()` for an `AValue`. -/
def AValue.toStr : AValue → String
  | .str s => s
  | .num n => toString n

/-- JavaScript truthiness of an `AValue` (`""` and `0` are falsy). -/
def AValue.truthy : AValue → Bool
  | .str s => s ≠ ""
  | .num n => n ≠ 0

/-- A raw record from the store: `{id, fields}`, where `fields` may be
absent (the code guards with `r.fields || {}`). -/
structure RawRecord where
  id : String
  fields : Option (List (String × AValue))
deriving DecidableEq, Repr

/-- A projected record `{id, fields}` as returned by `pickFields`. -/
structure ProjRecord where
  id : String
  fields : List (String × AValue)
deriving DecidableEq, Repr

/-- `dateFields: { checkin, checkout }` of a bookings table. -/
structure DateFields where
  checkin : String
  checkout : String
deriving DecidableEq, Repr

/-- A bookings-table configuration (`tableName`, `allowedFields`,
`dateFields`). -/
structure BookingsCfg where
  tableName : String
  allowedFields : List String
  dateFields : DateFields
deriving DecidableEq, Repr

/-- A table configuration without date fields (guests, contacts). -/
structure TableCfg where
  tableName : String
  allowedFields : List String
deriving DecidableEq, Repr

/-- The `tables` object of a property. -/
structure Tables where
  bookings : BookingsCfg
  guests : TableCfg
  contacts : TableCfg
deriving DecidableEq, Repr

/-- One property of the registry. -/
structure Property where
  propertyId : String
  name : String
  baseId : String
  tables : Tables
deriving DecidableEq, Repr

/-- The single property configured in the source file (the env fallback
value stands for `baseId`). -/
def zenProp : Property :=
  { propertyId := "415394"
    name := "Serenity Zen Retreat"
    baseId := "appZjxFyoaNUFlwCT"
    tables :=
      { bookings :=
          { tableName := "Bookings"
            allowedFields :=
              ["Booking_ID", "Property_Name", "Guest_Name", "Guest_Email",
               "Guest_Phone", "Arrival_Date", "Departure_Date", "Nights_Stay",
               "Booking_Status", "Listing_Site", "Notes"]
            dateFields :=
              { checkin := "Arrival_Date", checkout := "Departure_Date" } }
        guests :=
          { tableName := "Guests"
            allowedFields :=
              ["First_Name", "Last_Name", "email", "Phone", "Address_City",
               "Address_State", "Address_Postal_Code", "Notes"] }
        contacts :=
          { tableName := "Contacts"
            allowedFields := ["Name"] } } }

/-- The static `properties` registry. -/
def properties : List Property := [zenProp]

/-- `MAX_RECORDS = 50`. -/
def MAX_RECORDS : Int := 50

/-- `DEFAULT_RANGE_DAYS = 31`. -/
def DEFAULT_RANGE_DAYS : Int := 31

/-- `properties.find((p) => p.propertyId === propertyId)`. -/
def getProperty (props : List Property) (propertyId : String) : Option Property :=
  props.find? (fun p => p.propertyId == propertyId)

/-- Operation-level errors (`throw new Error(...)` in the handlers, plus
remote failures propagated from axios). -/
inductive OpError where
  | unknownProperty : String → OpError
  | noProperties : OpError
  | remote : Nat → String → OpError
deriving DecidableEq, Repr

/-- A non-success response from the store (`RemoteError{status, message}`). -/
structure RemoteErr where
  status : Nat
  message : String
deriving DecidableEq, Repr

/-- `ensureProperty`: resolve or throw `Unknown propertyId`. -/
def ensureProperty (props : List Property) (propertyId : String) :
    Except OpError Property :=
  match getProperty props propertyId with
  | some p => .ok p
  | none => .error (.unknownProperty propertyId)

/-- `pickFields(records, allowed)`: keep `id`, filter the entries of
`r.fields || {}` down to keys in `allowed`. -/
def pickFields (records : List RawRecord) (allowed : List String) :
    List ProjRecord :=
  records.map (fun r =>
    { id := r.id
      fields := (r.fields.getD []).filter (fun kv => allowed.contains kv.1) })

/-- The query parameters of one store request. -/
structure Params where
  view : Option String
  maxRecords : Option Int
  filterByFormula : Option String
  fields : Option (List String)
deriving DecidableEq, Repr

/-- One GET request to the store: `/{baseId}/{tableName}` plus params. -/
structure FetchCall where
  baseId : String
  tableName : String
  params : Params
deriving DecidableEq, Repr

/-- `fetchTable`: build the request.  Each `if (x) params.x = ...` guard
uses JavaScript truthiness: an absent option, the empty string, the number
`0` and an empty `fields` array all leave the parameter out. -/
def fetchTable (baseId tableName : String) (view : Option String)
    (maxRecords : Option Int) (filterByFormula : Option String)
    (fields : Option (List String)) : FetchCall :=
  { baseId := baseId
    tableName := tableName
    params :=
      { view := match view with
          | some v => if v ≠ "" then some v else none
          | none => none
        maxRecords := match maxRecords with
          | some m => if m ≠ 0 then some (min m MAX_RECORDS) else none
          | none => none
        filterByFormula := match filterByFormula with
          | some f => if f ≠ "" then some f else none
          | none => none
        fields := match fields with
          | some fs => if fs ≠ [] then some fs else none
          | none => none } }

/-- JavaScript `a || b` on an optional number (`0` falls through to `b`);
used for `max_records || MAX_RECORDS`. -/
def jsOr (a : Option Int) (b : Int) : Int :=
  match a with
  | some m => if m ≠ 0 then m else b
  | none => b

/-- Rendering of a day index inside a formula string (the code embeds the
`YYYY-MM-DD` string; the rendering is opaque to every claim). -/
def dateStr (d : Int) : String := toString d

/-- The remote-store oracle: what the store answers to one GET request. -/
def FetchOracle : Type := FetchCall → Except RemoteErr (List RawRecord)

/-- The date-range formula template of `list_bookings_by_range`:
`AND(IS_BEFORE({checkin}, DATEADD(end, 1, days)), IS_AFTER({checkout},
DATEADD(start, -1, days)))`. -/
def dateRangeFormula (f : DateFields) (rangeStart rangeEnd : Int) : String :=
  "AND(IS_BEFORE(\x7b" ++ f.checkin ++ "\x7d, DATEADD(\x27" ++ dateStr rangeEnd ++
    "\x27, 1, \x27days\x27)), IS_AFTER(\x7b" ++ f.checkout ++ "\x7d, DATEADD(\x27" ++
    dateStr rangeStart ++ "\x27, -1, \x27days\x27)))"

/-- Day-level truth value of `dateRangeFormula` on a record whose check-in
and check-out days are given, under the store dialect's semantics:
`IS_BEFORE` is `<`, `IS_AFTER` is `>`, and `DATEADD(d, n, days)` is
`d + n` at day granularity. -/
def dateRangeHolds (checkin checkout rangeStart rangeEnd : Int) : Bool :=
  decide (checkin < rangeEnd + 1) && decide (checkout > rangeStart - 1)

/-- `makeFilter` of `todays_checkins_checkouts`: same-day membership of
check-in or check-out. -/
def sameDayFormula (f : DateFields) (d : Int) : String :=
  "OR(\n    IS_SAME(\x7b" ++ f.checkin ++ "\x7d, \x27" ++ dateStr d ++
    "\x27, \x27day\x27),\n    IS_SAME(\x7b" ++ f.checkout ++ "\x7d, \x27" ++ dateStr d ++
    "\x27, \x27day\x27)\n  )"

/-- The `find_booking_by_guest` filter: OR of substring matches on
`Guest_Name` / `Guest_Email`, the query interpolated verbatim between
single quotes. -/
def findBookingFormula (query : String) : String :=
  "OR(\n      FIND(LOWER(\x27" ++ query ++
    "\x27), LOWER(\x7bGuest_Name\x7d))>0,\n      FIND(LOWER(\x27" ++ query ++
    "\x27), LOWER(\x7bGuest_Email\x7d))>0\n    )"

/-- The guests filter of `get_guest_contact` (query already lower-cased
by the caller, interpolated verbatim). -/
def guestsQueryFormula (q : String) : String :=
  "OR(\n      FIND(\x27" ++ q ++ "\x27, LOWER(\x7bFirst_name\x7d))>0,\n      FIND(\x27" ++
    q ++ "\x27, LOWER(\x7bLast_Name\x7d))>0,\n      FIND(\x27" ++ q ++
    "\x27, LOWER(CONCATENATE(\x7bFirst_name\x7d, \x27 \x27, \x7bLast_Name\x7d)))>0,\n      FIND(\x27" ++
    q ++ "\x27, LOWER(\x7bemail\x7d))>0\n    )"

/-- The bookings filter of `get_guest_contact`. -/
def bookingsQueryFormula (q : String) : String :=
  "OR(\n          FIND(LOWER(\x27" ++ q ++
    "\x27), LOWER(\x7bGuest_Name\x7d))>0,\n          FIND(LOWER(\x27" ++ q ++
    "\x27), LOWER(\x7bGuest_Email\x7d))>0\n        )"

/-- Result of `list_bookings_by_range`: `{bookings, range}`. -/
structure BookingsRangeOut where
  bookings : List ProjRecord
  rangeStart : Int
  rangeEnd : Int
deriving DecidableEq, Repr

/-- `list_bookings_by_range` handler.  `start_date || ...` /
`end_date || ...` default absent dates (an `Option.getD`); the fetch is
issued with `max_records || MAX_RECORDS`.  Returns the result together
with the list of store requests issued. -/
def list_bookings_by_range (props : List Property) (fetch : FetchOracle)
    (today : Int) (property_id : String) (start_date end_date : Option Int)
    (max_records : Option Int) :
    Except OpError BookingsRangeOut × List FetchCall :=
  match ensureProperty props property_id with
  | .error e => (.error e, [])
  | .ok prop =>
    let table := prop.tables.bookings
    let rangeStart := start_date.getD today
    let rangeEnd := end_date.getD (today + DEFAULT_RANGE_DAYS)
    let filterByFormula := dateRangeFormula table.dateFields rangeStart rangeEnd
    let call := fetchTable prop.baseId table.tableName none
      (some (jsOr max_records MAX_RECORDS)) (some filterByFormula)
      (some table.allowedFields)
    match fetch call with
    | .error e => (.error (.remote e.status e.message), [call])
    | .ok recs =>
      (.ok { bookings := pickFields recs table.allowedFields
             rangeStart := rangeStart, rangeEnd := rangeEnd }, [call])

/-- Result of `todays_checkins_checkouts`: `{today, tomorrow}`. -/
structure TodaysOut where
  today : List ProjRecord
  tomorrow : List ProjRecord
deriving DecidableEq, Repr

/-- `todays_checkins_checkouts` handler: two same-day fetches awaited
together (`Promise.all`); either failure fails the whole operation. -/
def todays_checkins_checkouts (props : List Property) (fetch : FetchOracle)
    (today : Int) (property_id : String) :
    Except OpError TodaysOut × List FetchCall :=
  match ensureProperty props property_id with
  | .error e => (.error e, [])
  | .ok prop =>
    let table := prop.tables.bookings
    let callFor := fun (d : Int) =>
      fetchTable prop.baseId table.tableName none (some MAX_RECORDS)
        (some (sameDayFormula table.dateFields d)) (some table.allowedFields)
    let todayCall := callFor today
    let tomorrowCall := callFor (today + 1)
    match fetch todayCall, fetch tomorrowCall with
    | .error e, _ => (.error (.remote e.status e.message), [todayCall, tomorrowCall])
    | _, .error e => (.error (.remote e.status e.message), [todayCall, tomorrowCall])
    | .ok recsT, .ok recsM =>
      (.ok { today := pickFields recsT table.allowedFields
             tomorrow := pickFields recsM table.allowedFields },
       [todayCall, tomorrowCall])

/-- `find_booking_by_guest` handler. -/
def find_booking_by_guest (props : List Property) (fetch : FetchOracle)
    (property_id query : String) (max_records : Option Int) :
    Except OpError (List ProjRecord) × List FetchCall :=
  match ensureProperty props property_id with
  | .error e => (.error e, [])
  | .ok prop =>
    let table := prop.tables.bookings
    let call := fetchTable prop.baseId table.tableName none
      (some (jsOr max_records MAX_RECORDS)) (some (findBookingFormula query))
      (some table.allowedFields)
    match fetch call with
    | .error e => (.error (.remote e.status e.message), [call])
    | .ok recs => (.ok (pickFields recs table.allowedFields), [call])

/-- `list_contacts` handler. -/
def list_contacts (props : List Property) (fetch : FetchOracle)
    (property_id : String) (max_records : Option Int) :
    Except OpError (List ProjRecord) × List FetchCall :=
  match ensureProperty props property_id with
  | .error e => (.error e, [])
  | .ok prop =>
    let table := prop.tables.contacts
    let call := fetchTable prop.baseId table.tableName none
      (some (jsOr max_records MAX_RECORDS)) none (some table.allowedFields)
    match fetch call with
    | .error e => (.error (.remote e.status e.message), [call])
    | .ok recs => (.ok (pickFields recs table.allowedFields), [call])

/-- `get_property` handler: a pure registry read, no store request. -/
def get_property (props : List Property) (property_id : String) :
    Except OpError Property × List FetchCall :=
  match ensureProperty props property_id with
  | .error e => (.error e, [])
  | .ok prop => (.ok prop, [])

/-- A whitespace character in the sense of `String.prototype.trim`. -/
def isSpaceChar (c : Char) : Bool :=
  c == ' ' || c == '\t' || c == '\n' || c == '\r'

/-- `s.toLowerCase()`. -/
def lowerStr (s : String) : String :=
  (s.toList.map Char.toLower).asString

/-- `s.trim()`: strip leading and trailing whitespace. -/
def trimStr (s : String) : String :=
  (((s.toList.dropWhile isSpaceChar).reverse.dropWhile isSpaceChar).reverse).asString

/-- `v?.toString().toLowerCase() || ""` on an optional field value. -/
def jsStrLower (v : Option AValue) : String :=
  match v with
  | some x => lowerStr x.toStr
  | none => ""

/-- `${v || ""}` inside a template literal: a truthy value is stringified,
anything else contributes the empty string. -/
def jsFieldStr (v : Option AValue) : String :=
  match v with
  | some x => if x.truthy then x.toStr else ""
  | none => ""

/-- Leading-segment test: the first list read off the front of the second. -/
def leadEq : List Char → List Char → Bool
  | [], _ => true
  | _ :: _, [] => false
  | a :: as, b :: bs => a == b && leadEq as bs

/-- Contiguous-occurrence test of the first list inside the second. -/
def containsSeq : List Char → List Char → Bool
  | n, [] => n.isEmpty
  | n, h :: t => leadEq n (h :: t) || containsSeq n t

/-- JavaScript `s.includes(sub)`: `sub` occurs contiguously in `s`. -/
def jsIncludes (s sub : String) : Bool :=
  containsSeq sub.toList s.toList

/-- `Except` results compare decidably (used to evaluate concrete runs). -/
instance {ε α : Type} [DecidableEq ε] [DecidableEq α] :
    DecidableEq (Except ε α) := fun a b =>
  match a, b with
  | .ok x, .ok y =>
    if h : x = y then .isTrue (by rw [h]) else
      .isFalse (by intro hc; injection hc; contradiction)
  | .error x, .error y =>
    if h : x = y then .isTrue (by rw [h]) else
      .isFalse (by intro hc; injection hc; contradiction)
  | .ok _, .error _ => .isFalse (by intro hc; injection hc)
  | .error _, .ok _ => .isFalse (by intro hc; injection hc)

/-- One guest entry of the `get_guest_contact` result: the projected guest
record spread together with `propertyId`, `propertyName` and the matched
bookings. -/
structure GuestEntry where
  id : String
  fields : List (String × AValue)
  propertyId : String
  propertyName : String
  bookings : List ProjRecord
deriving DecidableEq, Repr

/-- The guest↔booking correlation step of `get_guest_contact` (lines
332–346): derive `email` from the projected `email` field and `name` from
the `First name` / `Last Name` keys of the projected fields, then attach
every booking whose guest-email contains `email`, or whose guest-name
contains `name`, or whose guest-name/guest-email contains the lower-cased
query `q`. -/
def correlateGuest (q : String) (bookings : List ProjRecord) (prop : Property)
    (g : ProjRecord) : GuestEntry :=
  let email := jsStrLower (g.fields.lookup "email")
  let name := lowerStr (trimStr
    (jsFieldStr (g.fields.lookup "First name") ++ " " ++
      jsFieldStr (g.fields.lookup "Last Name")))
  let matchedBookings := bookings.filter (fun b =>
    let be := jsStrLower (b.fields.lookup "Guest_Email")
    let bn := jsStrLower (b.fields.lookup "Guest_Name")
    (email ≠ "" && jsIncludes be email) || (name ≠ "" && jsIncludes bn name) ||
      jsIncludes bn q || jsIncludes be q)
  { id := g.id, fields := g.fields, propertyId := prop.propertyId
    propertyName := prop.name, bookings := matchedBookings }

/-- The guest fetch a property receives inside `get_guest_contact`. -/
def guestCall (filterByFormula : String) (perPropertyMax : Int)
    (prop : Property) : FetchCall :=
  fetchTable prop.baseId prop.tables.guests.tableName none
    (some perPropertyMax) (some filterByFormula)
    (some prop.tables.guests.allowedFields)

/-- The booking fetch a property receives inside `get_guest_contact`. -/
def bookingCall (q : String) (perPropertyMax : Int) (prop : Property) :
    FetchCall :=
  fetchTable prop.baseId prop.tables.bookings.tableName none
    (some perPropertyMax) (some (bookingsQueryFormula q))
    (some prop.tables.bookings.allowedFields)

/-- The per-property body of `get_guest_contact`: fetch matching guests,
fetch matching bookings, project both, correlate. -/
def guestContactPerProp (fetch : FetchOracle) (filterByFormula q : String)
    (perPropertyMax : Int) (prop : Property) :
    Except OpError (List GuestEntry) × List FetchCall :=
  match fetch (guestCall filterByFormula perPropertyMax prop) with
  | .error e =>
    (.error (.remote e.status e.message), [guestCall filterByFormula perPropertyMax prop])
  | .ok guestRecs =>
    match fetch (bookingCall q perPropertyMax prop) with
    | .error e =>
      (.error (.remote e.status e.message),
       [guestCall filterByFormula perPropertyMax prop, bookingCall q perPropertyMax prop])
    | .ok bookingRecs =>
      let bookings := pickFields bookingRecs prop.tables.bookings.allowedFields
      let guests := (pickFields guestRecs prop.tables.guests.allowedFields).map
        (correlateGuest q bookings prop)
      (.ok guests,
       [guestCall filterByFormula perPropertyMax prop, bookingCall q perPropertyMax prop])

/-- `Promise.all` over the configured properties, flattening the guest
lists (`results.flat()`); any branch failing fails the whole operation. -/
def guestContactAll (fetch : FetchOracle) (filterByFormula q : String)
    (perPropertyMax : Int) :
    List Property → Except OpError (List GuestEntry) × List FetchCall
  | [] => (.ok [], [])
  | p :: ps =>
    match guestContactPerProp fetch filterByFormula q perPropertyMax p with
    | (.error e, tr) => (.error e, tr)
    | (.ok gs, tr) =>
      match guestContactAll fetch filterByFormula q perPropertyMax ps with
      | (.error e, tr2) => (.error e, tr ++ tr2)
      | (.ok rest, tr2) => (.ok (gs ++ rest), tr ++ tr2)

/-- `get_guest_contact` handler: top-level configuration check, then the
cross-property lookup. -/
def get_guest_contact (props : List Property) (fetch : FetchOracle)
    (query : String) (max_records : Option Int) :
    Except OpError (List GuestEntry) × List FetchCall :=
  if props.isEmpty then (.error .noProperties, [])
  else
    let q := lowerStr query
    guestContactAll fetch (guestsQueryFormula q) q (jsOr max_records MAX_RECORDS)
      props

/-- The single-quote character of the store's formula dialect. -/
def quoteChar : Char := '\x27'

/-- The first string literal of a formula: the characters strictly between
the first quote and the quote that follows it.  If the embedded query kept
its literal context, this is the (lower-cased) query itself for the
substring-search formulas, whose first quote opens the query literal. -/
def firstLiteral (s : String) : String :=
  ((((s.toList.dropWhile (fun c => c ≠ quoteChar)).drop 1).takeWhile
    (fun c => c ≠ quoteChar))).asString

/-- An oracle whose store is empty: every request answers zero records. -/
def emptyOracle : FetchOracle := fun _ => .ok []

/-- An oracle returning one record that carries a field (`secret`) outside
every allow-list, to exercise the field-leak invariant. -/
def leakOracle : FetchOracle := fun _ =>
  .ok [{ id := "r1"
         fields := some [("Guest_Name", AValue.str "A"),
                         ("Name", AValue.str "N"),
                         ("secret", AValue.str "S")] }]

/-- A guest record whose projected fields carry `First_Name`, `Last_Name`
and `email` (the keys of the configured guests allow-list). -/
def c6Guest : RawRecord :=
  { id := "g1"
    fields := some [("First_Name", AValue.str "John"),
                    ("Last_Name", AValue.str "Smith"),
                    ("email", AValue.str "john.smith@x.com")] }

/-- A booking whose guest-name is exactly the guest's first and last name. -/
def c6Booking : RawRecord :=
  { id := "b1"
    fields := some [("Guest_Name", AValue.str "John Smith"),
                    ("Guest_Email", AValue.str "")] }

/-- An oracle serving `c6Guest` from the guests table and `c6Booking` from
every other table. -/
def c6Oracle : FetchOracle := fun c =>
  if c.tableName == "Guests" then .ok [c6Guest] else .ok [c6Booking]

/-! ## Theorems -/

/-- Every key of every record produced by `pickFields` is allow-listed. -/
theorem pickFields_key_mem {recs : List RawRecord} {allowed : List String}
    {r : ProjRecord} (hr : r ∈ pickFields recs allowed)
    {kv : String × AValue} (hkv : kv ∈ r.fields) : kv.1 ∈ allowed := by
  unfold pickFields at hr
  obtain ⟨raw, -, rfl⟩ := List.mem_map.mp hr
  have h := List.mem_filter.mp hkv
  simpa using h.2


/-- A date-range formula string is never empty (so `fetchTable` always
forwards it as the `filterByFormula` parameter). -/
theorem dateRangeFormula_ne_empty (f : DateFields) (s e : Int) :
    dateRangeFormula f s e ≠ "" := by
  intro h
  have hlen := congrArg String.length h
  simp [dateRangeFormula, String.length_append] at hlen
  exact absurd hlen.1.1.1.1.1.1.1.1 (by decide)

/-- C2: `pickFields` returns one output record per input record, keeps
`id`, keeps exactly the key/value pairs whose key is allow-listed (values
verbatim, absent keys absent), and is total — a record with a missing
`fields` map contributes its (empty) entry set. -/
theorem c2_pickFields_projection (recs : List RawRecord) (allowed : List String) :
    (pickFields recs allowed).length = recs.length ∧
    List.Forall₂ (fun r pr =>
      pr.id = r.id ∧
      ∀ (k : String) (v : AValue),
        ((k, v) ∈ pr.fields ↔ (k, v) ∈ r.fields.getD [] ∧ k ∈ allowed))
      recs (pickFields recs allowed) := by
  constructor
  · simp [pickFields]
  · induction recs with
    | nil => exact List.Forall₂.nil
    | cons r rs ih =>
      refine List.Forall₂.cons ⟨rfl, ?_⟩ ih
      intro k v
      constructor
      · intro h
        have h2 := List.mem_filter.mp h
        exact ⟨h2.1, by simpa using h2.2⟩
      · intro h
        exact List.mem_filter.mpr ⟨h.1, by simpa using h.2⟩

/-- C3 counterexample: a `fetchTable` call with no requested `maxRecords`
sends no `maxRecords` parameter at all — not an effective cap of
`MAX_RECORDS` as claimed. -/
theorem c3_counterexample :
    (fetchTable "appZjxFyoaNUFlwCT" "Bookings" none none none none).params.maxRecords
      = none ∧
    (fetchTable "appZjxFyoaNUFlwCT" "Bookings" none none none none).params.maxRecords
      ≠ some MAX_RECORDS := by
  decide

/-- C3 (amended): when a non-zero `maxRecords` is requested the call sends
`min(requested, MAX_RECORDS)`; when the request is absent — or `0`, which
is falsy — the `maxRecords` parameter is omitted entirely. -/
theorem c3_fetchTable_maxRecords_cap (baseId tableName : String)
    (view : Option String) (filterByFormula : Option String)
    (fields : Option (List String)) :
    (∀ m : Int, m ≠ 0 →
      (fetchTable baseId tableName view (some m) filterByFormula fields).params.maxRecords
        = some (min m MAX_RECORDS)) ∧
    (fetchTable baseId tableName view none filterByFormula fields).params.maxRecords
      = none ∧
    (fetchTable baseId tableName view (some 0) filterByFormula fields).params.maxRecords
      = none := by
  refine ⟨?_, rfl, ?_⟩
  · intro m hm
    simp [fetchTable, hm]
  · simp [fetchTable]

/-- C3 witness: requesting 80 records sends a cap of 50. -/
theorem c3_fetchTable_maxRecords_cap_witness :
    (fetchTable "appZjxFyoaNUFlwCT" "Bookings" none (some 80) none none).params.maxRecords
      = some 50 := by
  have h := (c3_fetchTable_maxRecords_cap "appZjxFyoaNUFlwCT" "Bookings"
    none none none).1 80 (by decide)
  have h2 : min (80 : Int) MAX_RECORDS = 50 := by decide
  rw [h, h2]

/-- C5: the date-range predicate holds exactly when the check-in is on or
before the range end and the check-out on or after the range start (so
both boundary dates are included), and `list_bookings_by_range` sends
exactly the `dateRangeFormula` of its computed range as the filter. -/
theorem c5_date_range_formula :
    (∀ checkin checkout rangeStart rangeEnd : Int,
      dateRangeHolds checkin checkout rangeStart rangeEnd = true ↔
        (checkin ≤ rangeEnd ∧ rangeStart ≤ checkout)) ∧
    (∀ props fetch today property_id start_date end_date max_records prop,
      getProperty props property_id = some prop →
      ∀ c ∈ (list_bookings_by_range props fetch today property_id
              start_date end_date max_records).2,
        c.params.filterByFormula =
          some (dateRangeFormula prop.tables.bookings.dateFields
            (start_date.getD today) (end_date.getD (today + DEFAULT_RANGE_DAYS)))) := by
  constructor
  · intro ci co s e
    simp only [dateRangeHolds, Bool.and_eq_true, decide_eq_true_eq]
    omega
  · intro props fetch today pid sd ed mr prop hgp c hc
    have he : ensureProperty props pid = .ok prop := by
      simp [ensureProperty, hgp]
    simp only [list_bookings_by_range, he] at hc
    split at hc <;>
      simp only [List.mem_singleton] at hc <;>
      subst hc <;>
      simp [fetchTable, dateRangeFormula_ne_empty]

/-- C5 witness: on the concrete empty-store run the issued call's filter
is the date-range formula of `[today, today + 31]`. -/
theorem c5_date_range_formula_witness :
    ∀ c ∈ (list_bookings_by_range properties emptyOracle 0 "415394"
            none none none).2,
      c.params.filterByFormula =
        some (dateRangeFormula zenProp.tables.bookings.dateFields 0 31) :=
  c5_date_range_formula.2 properties emptyOracle 0 "415394" none none none
    zenProp (by decide)

/-- C9: resolving an unknown property id makes every single-property
operation fail with the unknown-property error while issuing zero store
requests. -/
theorem c9_unknown_property_no_fetch (props : List Property)
    (property_id : String) (h : getProperty props property_id = none) :
    (∀ fetch today start_date end_date max_records,
      list_bookings_by_range props fetch today property_id start_date
          end_date max_records
        = (.error (.unknownProperty property_id), [])) ∧
    (∀ fetch today, todays_checkins_checkouts props fetch today property_id
        = (.error (.unknownProperty property_id), [])) ∧
    (∀ fetch query max_records,
      find_booking_by_guest props fetch property_id query max_records
        = (.error (.unknownProperty property_id), [])) ∧
    (∀ fetch max_records, list_contacts props fetch property_id max_records
        = (.error (.unknownProperty property_id), [])) ∧
    get_property props property_id
      = (.error (.unknownProperty property_id), []) := by
  have he : ensureProperty props property_id
      = .error (.unknownProperty property_id) := by
    simp [ensureProperty, h]
  refine ⟨?_, ?_, ?_, ?_, ?_⟩ <;>
    simp [list_bookings_by_range, todays_checkins_checkouts,
      find_booking_by_guest, list_contacts, get_property, he]

/-- C9 witness: the id `nope` is not configured, and `get_property`
rejects it without any store request. -/
theorem c9_unknown_property_no_fetch_witness :
    get_property properties "nope" = (.error (.unknownProperty "nope"), []) :=
  (c9_unknown_property_no_fetch properties "nope" (by decide)).2.2.2.2

/-- C4 counterexample: with `today = 0` and a supplied `start_date = 10`
but no `end_date`, the returned range ends at `today + 31 = 31`, not at
`start + 31 = 41` as the claim states. -/
theorem c4_counterexample :
    (list_bookings_by_range properties emptyOracle 0 "415394"
        (some 10) none none).1
      = .ok { bookings := [], rangeStart := 10, rangeEnd := 31 } ∧
    (31 : Int) ≠ 10 + DEFAULT_RANGE_DAYS := by
  exact ⟨by decide, by decide⟩

/-- C4 (amended): `start` defaults to today and `end` defaults to
`today + DEFAULT_RANGE_DAYS` — independently of any supplied `start` — so
only a call with both dates omitted is guaranteed a range exactly
`DEFAULT_RANGE_DAYS` wide starting today. -/
theorem c4_range_defaults (props : List Property) (fetch : FetchOracle)
    (today : Int) (property_id : String) (start_date end_date : Option Int)
    (max_records : Option Int) (out : BookingsRangeOut)
    (h : (list_bookings_by_range props fetch today property_id start_date
            end_date max_records).1 = .ok out) :
    out.rangeStart = start_date.getD today ∧
    out.rangeEnd = end_date.getD (today + DEFAULT_RANGE_DAYS) ∧
    (start_date = none → end_date = none →
      out.rangeStart = today ∧ out.rangeEnd = today + DEFAULT_RANGE_DAYS) := by
  simp only [list_bookings_by_range] at h
  split at h
  · simp at h
  · split at h
    · simp at h
    · simp only at h
      injection h with h
      subst h
      refine ⟨rfl, rfl, ?_⟩
      rintro rfl rfl
      exact ⟨rfl, rfl⟩

/-- C4 witness: the all-defaults call returns `[today, today + 31]`. -/
theorem c4_range_defaults_witness :
    ({ bookings := [], rangeStart := 0, rangeEnd := 31 } : BookingsRangeOut).rangeStart
        = 0 ∧
    ({ bookings := [], rangeStart := 0, rangeEnd := 31 } : BookingsRangeOut).rangeEnd
        = 0 + DEFAULT_RANGE_DAYS := by
  have h := c4_range_defaults properties emptyOracle 0 "415394" none none none
    { bookings := [], rangeStart := 0, rangeEnd := 31 } (by decide)
  exact h.2.2 rfl rfl

/-- C6: the correlator reads the keys `First name` / `Last Name`, which
the guests allow-list (`First_Name` / `Last_Name`) can never let through
projection, so the derived name is empty and name-based matching never
fires: on this input the booking's lower-cased guest-name contains
exactly the guest's trimmed lower-cased first+last name, yet the guest
entry is returned with zero attached bookings. -/
theorem c6_correlator_dead_name_matching :
    (get_guest_contact properties c6Oracle "zz" none).1
      = .ok [{ id := "g1"
               fields := [("First_Name", AValue.str "John"),
                          ("Last_Name", AValue.str "Smith"),
                          ("email", AValue.str "john.smith@x.com")]
               propertyId := "415394"
               propertyName := "Serenity Zen Retreat"
               bookings := [] }] ∧
    jsIncludes (jsStrLower ((c6Booking.fields.getD []).lookup "Guest_Name"))
      (lowerStr (trimStr
        (jsFieldStr ((c6Guest.fields.getD []).lookup "First_Name") ++ " " ++
          jsFieldStr ((c6Guest.fields.getD []).lookup "Last_Name"))))
      = true := by
  exact ⟨by decide, by decide⟩

/-- C7: naive interpolation lets a quote in the query terminate the
formula's string literal.  The first literal of the generated formula is
the query for a quote-free query, but collapses to the prefix before the
quote otherwise, changing the structure of the boolean expression. -/
theorem c7_quote_breaks_literal :
    firstLiteral (findBookingFormula "o\x27brien") = "o" ∧
    "o" ≠ "o\x27brien" ∧
    firstLiteral (findBookingFormula "obrien") = "obrien" ∧
    firstLiteral (guestsQueryFormula "o\x27brien") = "o" := by
  refine ⟨by decide, by decide, by decide, by decide⟩

/-- A failing per-property lookup reports a remote error. -/
theorem guestContactPerProp_error_remote {fetch : FetchOracle} {f q : String}
    {pm : Int} {p : Property} {e : OpError} {tr : List FetchCall}
    (h : guestContactPerProp fetch f q pm p = (.error e, tr)) :
    ∃ st msg, e = .remote st msg := by
  unfold guestContactPerProp at h
  split at h
  · injection h with h1 h2
    injection h1 with h1
    exact ⟨_, _, h1.symm⟩
  · split at h
    · injection h with h1 h2
      injection h1 with h1
      exact ⟨_, _, h1.symm⟩
    · injection h with h1 h2
      exact Except.noConfusion h1

/-- A failing cross-property lookup reports a remote error. -/
theorem guestContactAll_error_remote {fetch : FetchOracle} {f q : String}
    {pm : Int} :
    ∀ (ps : List Property) (e : OpError) (tr : List FetchCall),
      guestContactAll fetch f q pm ps = (.error e, tr) →
      ∃ st msg, e = .remote st msg := by
  intro ps
  induction ps with
  | nil =>
    intro e tr h
    unfold guestContactAll at h
    injection h with h1 h2
    exact Except.noConfusion h1
  | cons p ps ih =>
    intro e tr h
    unfold guestContactAll at h
    split at h
    · next tr1 heq =>
      injection h with h1 h2
      injection h1 with h1
      exact h1 ▸ guestContactPerProp_error_remote heq
    · split at h
      · next heq2 =>
        injection h with h1 h2
        injection h1 with h1
        exact h1 ▸ ih _ _ heq2
      · injection h with h1 h2
        exact Except.noConfusion h1

/-- A successful per-property lookup means both of its fetches succeeded. -/
theorem guestContactPerProp_ok_fetches {fetch : FetchOracle} {f q : String}
    {pm : Int} {p : Property} {gs : List GuestEntry} {tr : List FetchCall}
    (h : guestContactPerProp fetch f q pm p = (.ok gs, tr)) :
    (∃ g, fetch (guestCall f pm p) = .ok g) ∧
    (∃ b, fetch (bookingCall q pm p) = .ok b) := by
  unfold guestContactPerProp at h
  split at h
  · injection h with h1 h2
    exact Except.noConfusion h1
  · next gRecs hg =>
    split at h
    · injection h with h1 h2
      exact Except.noConfusion h1
    · next bRecs hb =>
      exact ⟨⟨gRecs, hg⟩, ⟨bRecs, hb⟩⟩

/-- A successful cross-property lookup contains every property's
successful contribution. -/
theorem guestContactAll_ok_forall {fetch : FetchOracle} {f q : String}
    {pm : Int} :
    ∀ (ps : List Property) (out : List GuestEntry) (tr : List FetchCall),
      guestContactAll fetch f q pm ps = (.ok out, tr) →
      ∀ p ∈ ps, ∃ gs tr2,
        guestContactPerProp fetch f q pm p = (.ok gs, tr2) ∧
        ∀ e ∈ gs, e ∈ out := by
  intro ps
  induction ps with
  | nil =>
    intro out tr h p hp
    simp at hp
  | cons p0 ps ih =>
    intro out tr h p hp
    unfold guestContactAll at h
    split at h
    · injection h with h1 h2
      exact Except.noConfusion h1
    · next gs0 tr1 heq0 =>
      split at h
      · injection h with h1 h2
        exact Except.noConfusion h1
      · next rest tr2 heq2 =>
        injection h with h1 h2
        injection h1 with h1
        rcases List.mem_cons.mp hp with rfl | hp2
        · exact ⟨gs0, tr1, heq0, fun e he => h1 ▸ List.mem_append_left _ he⟩
        · obtain ⟨gs, tr3, hpp, hsub⟩ := ih rest tr2 heq2 p hp2
          exact ⟨gs, tr3, hpp,
            fun e he => h1 ▸ List.mem_append_right _ (hsub e he)⟩

/-- C8: `get_guest_contact` fails with the configuration error exactly
when zero properties are configured, and a successful result implies that
every configured property's guest fetch and booking fetch succeeded and
that its full contribution is contained in the result (fail-fast, no
partial aggregation). -/
theorem c8_guest_contact_failfast (props : List Property) (fetch : FetchOracle)
    (query : String) (max_records : Option Int) :
    ((get_guest_contact props fetch query max_records).1
        = .error .noProperties ↔ props = []) ∧
    ∀ out, (get_guest_contact props fetch query max_records).1 = .ok out →
      props ≠ [] ∧
      ∀ p ∈ props,
        (∃ g, fetch (guestCall (guestsQueryFormula (lowerStr query))
            (jsOr max_records MAX_RECORDS) p) = .ok g) ∧
        (∃ b, fetch (bookingCall (lowerStr query)
            (jsOr max_records MAX_RECORDS) p) = .ok b) ∧
        ∃ gs tr2,
          guestContactPerProp fetch (guestsQueryFormula (lowerStr query))
              (lowerStr query) (jsOr max_records MAX_RECORDS) p
            = (.ok gs, tr2) ∧
          ∀ e ∈ gs, e ∈ out := by
  constructor
  · constructor
    · intro h
      by_contra hne
      unfold get_guest_contact at h
      rw [if_neg (by simpa using hne)] at h
      rcases hg : guestContactAll fetch (guestsQueryFormula (lowerStr query))
          (lowerStr query) (jsOr max_records MAX_RECORDS) props with ⟨res, tr⟩
      rw [hg] at h
      simp only at h
      subst h
      obtain ⟨st, msg, hrem⟩ := guestContactAll_error_remote props _ _ hg
      exact OpError.noConfusion hrem
    · rintro rfl
      rfl
  · intro out hout
    have hne : props ≠ [] := by
      rintro rfl
      simp [get_guest_contact] at hout
    refine ⟨hne, ?_⟩
    intro p hp
    unfold get_guest_contact at hout
    rw [if_neg (by simpa using hne)] at hout
    rcases hg : guestContactAll fetch (guestsQueryFormula (lowerStr query))
        (lowerStr query) (jsOr max_records MAX_RECORDS) props with ⟨res, tr⟩
    rw [hg] at hout
    simp only at hout
    subst hout
    obtain ⟨gs, tr2, hpp, hsub⟩ := guestContactAll_ok_forall props _ _ hg p hp
    obtain ⟨hgf, hbf⟩ := guestContactPerProp_ok_fetches hpp
    exact ⟨hgf, hbf, gs, tr2, hpp, hsub⟩

/-- C8 witness: with the configured registry a successful run implies the
registry is non-empty. -/
theorem c8_guest_contact_failfast_witness : properties ≠ [] :=
  ((c8_guest_contact_failfast properties emptyOracle "ab" none).2 []
    (by decide)).1

/-- A non-zero requested cap is sent as `min(requested, MAX_RECORDS)`. -/
theorem fetchTable_sends_min {b t : String} {v : Option String}
    {f : Option String} {fl : Option (List String)} {m : Int} (hm : m ≠ 0) :
    (fetchTable b t v (some m) f fl).params.maxRecords
      = some (min m MAX_RECORDS) := by
  simp [fetchTable, hm]

/-- `max_records || MAX_RECORDS` under the tool-schema validation
(`z.number().int().positive()`): non-zero, the caller's value when one is
supplied, `MAX_RECORDS` otherwise, and capped at `MAX_RECORDS`. -/
theorem jsOr_facts (mr : Option Int) (h : ∀ m, mr = some m → 0 < m) :
    jsOr mr MAX_RECORDS ≠ 0 ∧
    (∀ m, mr = some m → jsOr mr MAX_RECORDS = m) ∧
    (mr = none → jsOr mr MAX_RECORDS = MAX_RECORDS) ∧
    min (jsOr mr MAX_RECORDS) MAX_RECORDS ≤ MAX_RECORDS := by
  refine ⟨?_, ?_, ?_, min_le_right _ _⟩
  · cases mr with
    | none => simp [jsOr, MAX_RECORDS]
    | some m =>
      have hm := h m rfl
      simp only [jsOr]
      split <;> omega
  · intro m hm
    subst hm
    have hm := h m rfl
    simp only [jsOr]
    split
    · rfl
    · omega
  · rintro rfl
    rfl

/-- Every store request of one per-property lookup is its guest call or
its booking call. -/
theorem guestContactPerProp_trace {fetch : FetchOracle} {f q : String}
    {pm : Int} {p : Property} {res : Except OpError (List GuestEntry)}
    {tr : List FetchCall}
    (h : guestContactPerProp fetch f q pm p = (res, tr)) :
    ∀ c ∈ tr, c = guestCall f pm p ∨ c = bookingCall q pm p := by
  unfold guestContactPerProp at h
  split at h
  · injection h with h1 h2
    subst h2
    intro c hc
    simp at hc
    exact Or.inl hc
  · split at h
    · injection h with h1 h2
      subst h2
      intro c hc
      rcases List.mem_cons.mp hc with rfl | hc2
      · exact Or.inl rfl
      · simp at hc2
        exact Or.inr hc2
    · injection h with h1 h2
      subst h2
      intro c hc
      rcases List.mem_cons.mp hc with rfl | hc2
      · exact Or.inl rfl
      · simp at hc2
        exact Or.inr hc2

/-- Every store request of the cross-property lookup is some property's
guest call or booking call. -/
theorem guestContactAll_trace {fetch : FetchOracle} {f q : String}
    {pm : Int} :
    ∀ (ps : List Property) (c : FetchCall),
      c ∈ (guestContactAll fetch f q pm ps).2 →
      ∃ p, c = guestCall f pm p ∨ c = bookingCall q pm p := by
  intro ps
  induction ps with
  | nil =>
    intro c hc
    simp [guestContactAll] at hc
  | cons p0 ps ih =>
    intro c hc
    unfold guestContactAll at hc
    split at hc
    · next e1 tr1 heq =>
      exact ⟨p0, guestContactPerProp_trace heq c hc⟩
    · next gs0 tr1 heq0 =>
      split at hc
      · next e2 tr2 heq2 =>
        rcases List.mem_append.mp hc with hc1 | hc2
        · exact ⟨p0, guestContactPerProp_trace heq0 c hc1⟩
        · have : c ∈ (guestContactAll fetch f q pm ps).2 := by
            rw [heq2]
            exact hc2
          exact ih c this
      · next rest tr2 heq2 =>
        rcases List.mem_append.mp hc with hc1 | hc2
        · exact ⟨p0, guestContactPerProp_trace heq0 c hc1⟩
        · have : c ∈ (guestContactAll fetch f q pm ps).2 := by
            rw [heq2]
            exact hc2
          exact ih c this

/-- C10: every composed operation passes an explicit `maxRecords` to the
fetcher — the caller's (positive, schema-validated) `max_records` when
supplied, `MAX_RECORDS` otherwise — so the `maxRecords` parameter on
every issued store request is present and never exceeds `MAX_RECORDS`. -/
theorem c10_maxRecords_always_present :
    (∀ props fetch today property_id start_date end_date
       (mr : Option Int), (∀ m, mr = some m → 0 < m) →
      ∀ c ∈ (list_bookings_by_range props fetch today property_id
              start_date end_date mr).2,
        c.params.maxRecords = some (min (jsOr mr MAX_RECORDS) MAX_RECORDS) ∧
        min (jsOr mr MAX_RECORDS) MAX_RECORDS ≤ MAX_RECORDS ∧
        (∀ m, mr = some m → jsOr mr MAX_RECORDS = m) ∧
        (mr = none → jsOr mr MAX_RECORDS = MAX_RECORDS)) ∧
    (∀ props fetch today property_id,
      ∀ c ∈ (todays_checkins_checkouts props fetch today property_id).2,
        c.params.maxRecords = some MAX_RECORDS) ∧
    (∀ props fetch property_id query (mr : Option Int),
      (∀ m, mr = some m → 0 < m) →
      ∀ c ∈ (find_booking_by_guest props fetch property_id query mr).2,
        c.params.maxRecords = some (min (jsOr mr MAX_RECORDS) MAX_RECORDS) ∧
        min (jsOr mr MAX_RECORDS) MAX_RECORDS ≤ MAX_RECORDS) ∧
    (∀ props fetch property_id (mr : Option Int),
      (∀ m, mr = some m → 0 < m) →
      ∀ c ∈ (list_contacts props fetch property_id mr).2,
        c.params.maxRecords = some (min (jsOr mr MAX_RECORDS) MAX_RECORDS) ∧
        min (jsOr mr MAX_RECORDS) MAX_RECORDS ≤ MAX_RECORDS) ∧
    (∀ props fetch query (mr : Option Int),
      (∀ m, mr = some m → 0 < m) →
      ∀ c ∈ (get_guest_contact props fetch query mr).2,
        c.params.maxRecords = some (min (jsOr mr MAX_RECORDS) MAX_RECORDS) ∧
        min (jsOr mr MAX_RECORDS) MAX_RECORDS ≤ MAX_RECORDS) := by
  refine ⟨?_, ?_, ?_, ?_, ?_⟩
  · intro props fetch today pid sd ed mr h c hc
    obtain ⟨hne, hsup, hnone, hmin⟩ := jsOr_facts mr h
    cases he : ensureProperty props pid with
    | error e =>
      simp [list_bookings_by_range, he] at hc
    | ok prop =>
      simp only [list_bookings_by_range, he] at hc
      split at hc <;>
      · simp only [List.mem_singleton] at hc
        subst hc
        exact ⟨fetchTable_sends_min hne, hmin, hsup, hnone⟩
  · intro props fetch today pid c hc
    cases he : ensureProperty props pid with
    | error e =>
      simp [todays_checkins_checkouts, he] at hc
    | ok prop =>
      simp only [todays_checkins_checkouts, he] at hc
      have hval : (MAX_RECORDS : Int) ≠ 0 := by decide
      have hms : min MAX_RECORDS MAX_RECORDS = MAX_RECORDS := min_self _
      split at hc <;>
      · simp only [List.mem_cons, List.not_mem_nil, or_false] at hc
        rcases hc with rfl | rfl <;>
          rw [fetchTable_sends_min hval, hms]
  · intro props fetch pid query mr h c hc
    obtain ⟨hne, hsup, hnone, hmin⟩ := jsOr_facts mr h
    cases he : ensureProperty props pid with
    | error e =>
      simp [find_booking_by_guest, he] at hc
    | ok prop =>
      simp only [find_booking_by_guest, he] at hc
      split at hc <;>
      · simp only [List.mem_singleton] at hc
        subst hc
        exact ⟨fetchTable_sends_min hne, hmin⟩
  · intro props fetch pid mr h c hc
    obtain ⟨hne, hsup, hnone, hmin⟩ := jsOr_facts mr h
    cases he : ensureProperty props pid with
    | error e =>
      simp [list_contacts, he] at hc
    | ok prop =>
      simp only [list_contacts, he] at hc
      split at hc <;>
      · simp only [List.mem_singleton] at hc
        subst hc
        exact ⟨fetchTable_sends_min hne, hmin⟩
  · intro props fetch query mr h c hc
    obtain ⟨hne, hsup, hnone, hmin⟩ := jsOr_facts mr h
    unfold get_guest_contact at hc
    split at hc
    · simp at hc
    · obtain ⟨p, hp⟩ := guestContactAll_trace props c hc
      rcases hp with rfl | rfl
      · exact ⟨fetchTable_sends_min hne, hmin⟩
      · exact ⟨fetchTable_sends_min hne, hmin⟩

/-- C10 witness: the default-limit call of `list_contacts` carries
`maxRecords = 50`. -/
theorem c10_maxRecords_always_present_witness :
    (fetchTable "appZjxFyoaNUFlwCT" "Contacts" none
        (some (jsOr none MAX_RECORDS)) none
        (some zenProp.tables.contacts.allowedFields)).params.maxRecords
      = some (min (jsOr none MAX_RECORDS) MAX_RECORDS) :=
  (c10_maxRecords_always_present.2.2.2.1 properties emptyOracle "415394" none
    (fun m hm => by cases hm)
    (fetchTable "appZjxFyoaNUFlwCT" "Contacts" none
      (some (jsOr none MAX_RECORDS)) none
      (some zenProp.tables.contacts.allowedFields))
    (by decide)).1

/-- Every entry of a successful cross-property lookup comes from some
configured property's per-property lookup. -/
theorem guestContactAll_mem_source {fetch : FetchOracle} {f q : String}
    {pm : Int} :
    ∀ (ps : List Property) (out : List GuestEntry) (tr : List FetchCall),
      guestContactAll fetch f q pm ps = (.ok out, tr) →
      ∀ e ∈ out, ∃ p, p ∈ ps ∧ ∃ gs tr2,
        guestContactPerProp fetch f q pm p = (.ok gs, tr2) ∧ e ∈ gs := by
  intro ps
  induction ps with
  | nil =>
    intro out tr h e he
    unfold guestContactAll at h
    injection h with h1 h2
    injection h1 with h1
    rw [← h1] at he
    simp at he
  | cons p0 ps ih =>
    intro out tr h e he
    unfold guestContactAll at h
    split at h
    · injection h with h1 h2
      exact Except.noConfusion h1
    · next gs0 tr1 heq0 =>
      split at h
      · injection h with h1 h2
        exact Except.noConfusion h1
      · next rest tr2 heq2 =>
        injection h with h1 h2
        injection h1 with h1
        rw [← h1] at he
        rcases List.mem_append.mp he with he1 | he2
        · exact ⟨p0, List.mem_cons_self _ _, gs0, tr1, heq0, he1⟩
        · obtain ⟨p, hp, gs, tr3, hpp, hegs⟩ := ih rest tr2 heq2 e he2
          exact ⟨p, List.mem_cons_of_mem _ hp, gs, tr3, hpp, hegs⟩

/-- Every entry of a successful per-property lookup carries the property's
tag, projected guest fields, and only projected bookings. -/
theorem guestContactPerProp_entry_fields {fetch : FetchOracle} {f q : String}
    {pm : Int} {p : Property} {gs : List GuestEntry} {tr : List FetchCall}
    (h : guestContactPerProp fetch f q pm p = (.ok gs, tr)) :
    ∀ e ∈ gs, e.propertyId = p.propertyId ∧
      (∀ kv ∈ e.fields, kv.1 ∈ p.tables.guests.allowedFields) ∧
      ∀ b ∈ e.bookings, ∀ kv ∈ b.fields,
        kv.1 ∈ p.tables.bookings.allowedFields := by
  unfold guestContactPerProp at h
  split at h
  · injection h with h1 h2
    exact Except.noConfusion h1
  · next gRecs hg =>
    split at h
    · injection h with h1 h2
      exact Except.noConfusion h1
    · next bRecs hb =>
      injection h with h1 h2
      injection h1 with h1
      intro e he
      rw [← h1] at he
      obtain ⟨g, hgmem, rfl⟩ := List.mem_map.mp he
      refine ⟨rfl, ?_, ?_⟩
      · intro kv hkv
        exact pickFields_key_mem hgmem hkv
      · intro b hb2 kv hkv
        have hb3 : b ∈ pickFields bRecs p.tables.bookings.allowedFields :=
          (List.mem_filter.mp hb2).1
        exact pickFields_key_mem hb3 hkv

/-- C1: every record any operation returns has its field keys inside the
allow-list of the table it came from — the bookings allow-list for the
three booking-backed operations, the contacts allow-list for
`list_contacts`, and for the cross-property lookup the owning property's
guests allow-list for the entry and its bookings allow-list for every
attached booking. -/
theorem c1_field_allowlist_invariant :
    (∀ props fetch today property_id start_date end_date max_records prop out,
      getProperty props property_id = some prop →
      (list_bookings_by_range props fetch today property_id start_date
          end_date max_records).1 = .ok out →
      ∀ r ∈ out.bookings, ∀ kv ∈ r.fields,
        kv.1 ∈ prop.tables.bookings.allowedFields) ∧
    (∀ props fetch today property_id prop out,
      getProperty props property_id = some prop →
      (todays_checkins_checkouts props fetch today property_id).1 = .ok out →
      (∀ r ∈ out.today, ∀ kv ∈ r.fields,
        kv.1 ∈ prop.tables.bookings.allowedFields) ∧
      (∀ r ∈ out.tomorrow, ∀ kv ∈ r.fields,
        kv.1 ∈ prop.tables.bookings.allowedFields)) ∧
    (∀ props fetch property_id query max_records prop out,
      getProperty props property_id = some prop →
      (find_booking_by_guest props fetch property_id query max_records).1
        = .ok out →
      ∀ r ∈ out, ∀ kv ∈ r.fields,
        kv.1 ∈ prop.tables.bookings.allowedFields) ∧
    (∀ props fetch property_id max_records prop out,
      getProperty props property_id = some prop →
      (list_contacts props fetch property_id max_records).1 = .ok out →
      ∀ r ∈ out, ∀ kv ∈ r.fields,
        kv.1 ∈ prop.tables.contacts.allowedFields) ∧
    (∀ props fetch query max_records out,
      (get_guest_contact props fetch query max_records).1 = .ok out →
      ∀ e ∈ out, ∃ p, p ∈ props ∧ e.propertyId = p.propertyId ∧
        (∀ kv ∈ e.fields, kv.1 ∈ p.tables.guests.allowedFields) ∧
        ∀ b ∈ e.bookings, ∀ kv ∈ b.fields,
          kv.1 ∈ p.tables.bookings.allowedFields) := by
  refine ⟨?_, ?_, ?_, ?_, ?_⟩
  · intro props fetch today pid sd ed mr prop out hgp hout
    have he : ensureProperty props pid = .ok prop := by
      simp [ensureProperty, hgp]
    simp only [list_bookings_by_range, he] at hout
    split at hout
    · simp at hout
    · next recs hrecs =>
      simp only at hout
      injection hout with hout
      subst hout
      intro r hr kv hkv
      exact pickFields_key_mem hr hkv
  · intro props fetch today pid prop out hgp hout
    have he : ensureProperty props pid = .ok prop := by
      simp [ensureProperty, hgp]
    simp only [todays_checkins_checkouts, he] at hout
    split at hout
    · simp at hout
    · simp at hout
    · next recsT recsM hT hM =>
      simp only at hout
      injection hout with hout
      subst hout
      constructor
      · intro r hr kv hkv
        exact pickFields_key_mem hr hkv
      · intro r hr kv hkv
        exact pickFields_key_mem hr hkv
  · intro props fetch pid query mr prop out hgp hout
    have he : ensureProperty props pid = .ok prop := by
      simp [ensureProperty, hgp]
    simp only [find_booking_by_guest, he] at hout
    split at hout
    · simp at hout
    · next recs hrecs =>
      simp only at hout
      injection hout with hout
      subst hout
      intro r hr kv hkv
      exact pickFields_key_mem hr hkv
  · intro props fetch pid mr prop out hgp hout
    have he : ensureProperty props pid = .ok prop := by
      simp [ensureProperty, hgp]
    simp only [list_contacts, he] at hout
    split at hout
    · simp at hout
    · next recs hrecs =>
      simp only at hout
      injection hout with hout
      subst hout
      intro r hr kv hkv
      exact pickFields_key_mem hr hkv
  · intro props fetch query mr out hout
    have hne : props ≠ [] := by
      rintro rfl
      simp [get_guest_contact] at hout
    unfold get_guest_contact at hout
    rw [if_neg (by simpa using hne)] at hout
    rcases hg : guestContactAll fetch (guestsQueryFormula (lowerStr query))
        (lowerStr query) (jsOr mr MAX_RECORDS) props with ⟨res, tr⟩
    rw [hg] at hout
    simp only at hout
    subst hout
    intro e he
    obtain ⟨p, hp, gs, tr2, hpp, hegs⟩ :=
      guestContactAll_mem_source props _ _ hg e he
    obtain ⟨hid, hf, hbk⟩ := guestContactPerProp_entry_fields hpp e hegs
    exact ⟨p, hp, hid, hf, hbk⟩

/-- C1 witness: on a store answering with an out-of-allow-list field
(`secret`), the surviving key of the returned booking is allow-listed. -/
theorem c1_field_allowlist_invariant_witness :
    ("Guest_Name" : String) ∈ zenProp.tables.bookings.allowedFields :=
  c1_field_allowlist_invariant.1 properties leakOracle 0 "415394" none none
    none zenProp
    { bookings := [{ id := "r1", fields := [("Guest_Name", AValue.str "A")] }]
      rangeStart := 0, rangeEnd := 31 }
    (by decide) (by decide)
    { id := "r1", fields := [("Guest_Name", AValue.str "A")] } (by decide)
    ("Guest_Name", AValue.str "A") (by decide)
